import Mathlib

/-!
Shallow embedding of the chrome-version-proxy service (src/main.go) and
verification of its specification claims.

Modelling conventions:
* Go `time.Time` values are modelled as `Int` nanosecond timestamps; the Go
  zero time is the timestamp `0` (only used for the `IsZero` check on
  `lastAPICall`).  `t1.After(t2)` is `t1 > t2`, `t1.Before(t2)` is `t1 < t2`.
* The Go map `Cache.entries` is modelled as an association list with
  insert-replaces-existing-key semantics (`insertKey`), matching Go map
  assignment.
* A request handler is modelled as a pure function of the request parameters,
  the upstream call's outcome, the shared cache state and the current time,
  returning the HTTP outcome and the new cache state.  Query-parameter
  accessors (`r.URL.Query().Get`) return `""` for an absent parameter, so an
  absent parameter is modelled as the empty string, exactly as in Go.
* The two upstream failure points in `getChromeVersions` (service
  construction, `call.Do()`) both record an API error and answer 500; they
  are merged into a single `Except String (List String)` upstream outcome,
  where the list holds the `Version` fields of the returned versions in
  order.
-/

/-- Model of Go `strconv.Atoi` on a list of characters: optional leading
sign, then a nonempty run of decimal digits.  Returns the parsed value and
an ok flag (`err == nil`).  A syntax error yields `(0, false)`; a value
outside the 64-bit int range yields the clamped extreme with `false`
(`strconv.ErrRange` semantics of `ParseInt(s, 10, 0)` on a 64-bit platform). -/
def atoiChars (l : List Char) : Int × Bool :=
  match l with
  | [] => (0, false)
  | c :: rest =>
    let neg : Bool := c = '-'
    let digits := if c = '-' || c = '+' then rest else c :: rest
    if digits.isEmpty || !digits.all (fun ch => ch.isDigit) then (0, false)
    else
      let n : Nat := digits.foldl (fun acc ch => acc * 10 + (ch.toNat - 48)) 0
      if neg then
        if n > 2 ^ 63 then (-(2 ^ 63 : Int), false) else (-(n : Int), true)
      else
        if n > 2 ^ 63 - 1 then ((2 ^ 63 - 1 : Int), false) else ((n : Int), true)

/-- Go `strconv.Atoi` on a string. -/
def atoi (s : String) : Int × Bool :=
  atoiChars s.toList

/-- Model of Go `strings.Split(s, ".")` on the character list of `s`:
splits at every `'.'`, keeping empty segments; the empty string yields one
empty segment, exactly as in Go. -/
def splitOnDot : List Char → List (List Char)
  | [] => [[]]
  | c :: rest =>
    let r := splitOnDot rest
    if c = '.' then [] :: r
    else
      match r with
      | [] => [[c]]
      | g :: gs => (c :: g) :: gs

/-- `extractMajor` (src/main.go:215): splits the version on `"."`, parses the
first segment with `strconv.Atoi`, ignoring the error, and returns the value. -/
def extractMajor (version : String) : Int :=
  match splitOnDot version.toList with
  | [] => 0
  | p :: _ => (atoiChars p).fst

/-- `findFirstVersionWithMajor` (src/main.go:225): first version string in
the list whose extracted major equals the target, or `""` if none. -/
def findFirstVersionWithMajor (versions : List String) (targetMajor : Int) : String :=
  match versions with
  | [] => ""
  | v :: rest =>
    if extractMajor v = targetMajor then v else findFirstVersionWithMajor rest targetMajor

/-- `VersionResponse` (src/main.go:20). -/
structure VersionResponse where
  latest : String
  latestAccepted : String
  channel : String
  platform : String
deriving DecidableEq, Repr

/-- The Go zero value of `VersionResponse`, returned by `Cache.Get` on a miss. -/
def emptyResponse : VersionResponse :=
  { latest := "", latestAccepted := "", channel := "", platform := "" }

/-- `CacheEntry` (src/main.go:52): a cached response with its absolute expiry. -/
structure CacheEntry where
  response : VersionResponse
  expiresAt : Int
deriving DecidableEq, Repr

/-- `Cache` (src/main.go:58): the shared store.  The mutex only serializes
access and has no sequential semantics, so it is not modelled. -/
structure Cache where
  entries : List (String × CacheEntry)
  hits : Int
  misses : Int
  lastAPICall : Int
  lastAPIError : String
  apiHealthy : Bool
deriving DecidableEq, Repr

/-- The global cache as initialized at startup (src/main.go:70). -/
def initialCache : Cache :=
  { entries := [], hits := 0, misses := 0, lastAPICall := 0,
    lastAPIError := "", apiHealthy := true }

/-- `cacheTTL = 24 * time.Hour` in nanoseconds (src/main.go:77). -/
def cacheTTL : Int := 24 * 60 * 60 * 1000000000

/-- Go map lookup on the association list: the unique binding of the key. -/
def lookupKey (k : String) : List (String × CacheEntry) → Option CacheEntry
  | [] => none
  | (k2, e) :: rest => if k2 = k then some e else lookupKey k rest

/-- Go map assignment on the association list: replace the binding if the
key is present, else append a new binding. -/
def insertKey (k : String) (e : CacheEntry) : List (String × CacheEntry) → List (String × CacheEntry)
  | [] => [(k, e)]
  | (k2, e2) :: rest => if k2 = k then (k, e) :: rest else (k2, e2) :: insertKey k e rest

/-- `Cache.Get` (src/main.go:283): returns the entry's response and `true`
only if the key is bound and `time.Now().After(entry.ExpiresAt)` is false,
i.e. `now ≤ expiresAt`; otherwise the zero response and `false`. -/
def cacheGet (c : Cache) (key : String) (now : Int) : VersionResponse × Bool :=
  match lookupKey key c.entries with
  | none => (emptyResponse, false)
  | some entry =>
    if now > entry.expiresAt then (emptyResponse, false)
    else (entry.response, true)

/-- `Cache.Set` (src/main.go:301): bind the key to the response with expiry
`now + cacheTTL`. -/
def cacheSet (c : Cache) (key : String) (response : VersionResponse) (now : Int) : Cache :=
  { c with entries := insertKey key { response := response, expiresAt := now + cacheTTL } c.entries }

/-- `Cache.recordHit` (src/main.go:384). -/
def recordHit (c : Cache) : Cache := { c with hits := c.hits + 1 }

/-- `Cache.recordMiss` (src/main.go:391). -/
def recordMiss (c : Cache) : Cache := { c with misses := c.misses + 1 }

/-- `Cache.recordAPISuccess` (src/main.go:398). -/
def recordAPISuccess (c : Cache) (now : Int) : Cache :=
  { c with lastAPICall := now, apiHealthy := true, lastAPIError := "" }

/-- `Cache.recordAPIError` (src/main.go:407); `msg` is `err.Error()`. -/
def recordAPIError (c : Cache) (msg : String) (now : Int) : Cache :=
  { c with lastAPICall := now, apiHealthy := false, lastAPIError := msg }

/-- `Cache.isAPIHealthy` (src/main.go:416). -/
def isAPIHealthy (c : Cache) : Bool := c.apiHealthy

/-- One sweep of `cleanupExpiredCache` (src/main.go:312): delete every entry
with `now.After(entry.ExpiresAt)`; counters and health state untouched. -/
def cleanupExpiredCache (c : Cache) (now : Int) : Cache :=
  { c with entries := c.entries.filter (fun kv => !(now > kv.2.expiresAt)) }

/-- `isValidPlatform` (src/main.go:254). -/
def isValidPlatform (platform : String) : Bool :=
  platform = "win" || platform = "win64" || platform = "mac" ||
  platform = "mac_arm64" || platform = "linux"

/-- `getVersionOffset` (src/main.go:235): the `VERSION_OFFSET` environment
variable (modelled as a string, `""` when unset), defaulting to `"10"`. -/
def getVersionOffset (env : String) : String :=
  if env = "" then "10" else env

/-- `getVersionOffsetInt` (src/main.go:244): parse the environment offset,
falling back to `10` on a parse error or a negative value. -/
def getVersionOffsetInt (env : String) : Int :=
  let offsetStr := getVersionOffset env
  let parsed := atoi offsetStr
  if !parsed.snd || parsed.fst < 0 then 10 else parsed.fst

/-- `getOffsetFromRequest` (src/main.go:267): the `offset` query parameter
(`""` when absent) takes precedence; a parse error yields `-1`; otherwise
the environment/default offset. -/
def getOffsetFromRequest (offsetParam : String) (env : String) : Int :=
  if offsetParam ≠ "" then
    let parsed := atoi offsetParam
    if !parsed.snd then -1 else parsed.fst
  else getVersionOffsetInt env

/-- The externally visible outcome of one request to `/api/chrome/version`:
the HTTP status class together with the encoded body. -/
inductive HttpResult where
  | badRequest (msg : String)
  | serverError (msg : String)
  | notFound (msg : String)
  | ok (resp : VersionResponse)
deriving DecidableEq, Repr

/-- Two's-complement wrap-around of Go 64-bit `int` arithmetic: reduce an
unbounded integer into `[-2^63, 2^63)` the way an overflowing Go `int64`
operation does. -/
def wrapInt64 (x : Int) : Int :=
  (x + 2 ^ 63) % 2 ^ 64 - 2 ^ 63

/-- `getChromeVersions` (src/main.go:98) as a pure transition function:
request parameters (query strings, `""` for absent), environment offset,
the upstream outcome that the Google API call would produce, the shared
cache state and the current time, to the HTTP outcome and new cache state.
The Go subtraction `latestMajor - offset` is 64-bit `int` arithmetic and
may wrap; both operands are already in int64 range (`strconv.Atoi`
clamping), so a single `wrapInt64` of the exact difference models it. -/
def getChromeVersions (platformParam offsetParam env : String)
    (upstream : Except String (List String)) (c : Cache) (now : Int) :
    HttpResult × Cache :=
  let platform := if platformParam = "" then "win64" else platformParam
  if !isValidPlatform platform then
    (.badRequest "Invalid platform. Use: win, win64, mac, mac_arm64, linux", c)
  else
    let offset := getOffsetFromRequest offsetParam env
    if offset < 0 then
      (.badRequest "Offset must be a number >= 0", c)
    else
      let cacheKey := platform ++ ":" ++ toString offset
      let got := cacheGet c cacheKey now
      if got.snd then
        (.ok got.fst, recordHit c)
      else
        let c1 := recordMiss c
        match upstream with
        | .error e => (.serverError ("Error calling API: " ++ e), recordAPIError c1 e now)
        | .ok versions =>
          let c2 := recordAPISuccess c1 now
          match versions with
          | [] => (.notFound "No versions found", c2)
          | latest :: _ =>
            let latestMajor := extractMajor latest
            let supportedMajor := wrapInt64 (latestMajor - offset)
            let found := findFirstVersionWithMajor versions supportedMajor
            let latestAccepted :=
              if found = "" then toString supportedMajor ++ ".0.0.0" else found
            let response : VersionResponse :=
              { latest := latest, latestAccepted := latestAccepted,
                channel := "stable", platform := platform }
            (.ok response, cacheSet c2 cacheKey response now)

/-- The overall status computed by `healthCheck` (src/main.go:349):
`"healthy"` when `cache.isAPIHealthy()`, else `"degraded"`. -/
def healthStatus (c : Cache) : String :=
  if isAPIHealthy c then "healthy" else "degraded"

/-- `CacheStats` (src/main.go:44).  The Go `HitRate` field is a string
formatted by `fmt.Sprintf("%.2f%%", float64(hits)/float64(total)*100)` and
omitted (`""`) when `total == 0`; it is modelled as `Option ℚ`, with the
float64 arithmetic taken as exact rational arithmetic and the two-decimal
formatting as rounding to the nearest multiple of `1/100`. -/
structure CacheStats where
  totalEntries : Nat
  activeEntries : Nat
  expiredEntries : Nat
  hitRate : Option ℚ
deriving DecidableEq, Repr

/-- `Cache.getStats` (src/main.go:433): counts entries with
`now.Before(ExpiresAt)` as active and the rest as expired, and reports the
hit rate only when `hits + misses > 0`. -/
def getStats (c : Cache) (now : Int) : CacheStats :=
  let active := (c.entries.filter (fun kv => now < kv.2.expiresAt)).length
  let expired := (c.entries.filter (fun kv => !(now < kv.2.expiresAt))).length
  let total := c.hits + c.misses
  { totalEntries := c.entries.length,
    activeEntries := active,
    expiredEntries := expired,
    hitRate :=
      if total > 0 then
        some ((round (((c.hits : ℚ) / (total : ℚ) * 100) * 100) : ℤ) / 100)
      else none }

/-- One mutation of the shared cache state, used to range over all histories
the program can produce between health checks. -/
inductive CacheOp where
  | hit
  | miss
  | setEntry (key : String) (resp : VersionResponse) (now : Int)
  | apiSuccess (now : Int)
  | apiError (msg : String) (now : Int)
  | sweep (now : Int)
deriving DecidableEq, Repr

/-- Apply one mutation to the cache state. -/
def applyOp (c : Cache) : CacheOp → Cache
  | .hit => recordHit c
  | .miss => recordMiss c
  | .setEntry key resp now => cacheSet c key resp now
  | .apiSuccess now => recordAPISuccess c now
  | .apiError msg now => recordAPIError c msg now
  | .sweep now => cleanupExpiredCache c now

/-- Apply a history of mutations in order. -/
def applyOps (c : Cache) (ops : List CacheOp) : Cache :=
  ops.foldl applyOp c

/-- The last upstream outcome recorded in a history: `some true` for a
success, `some false` for a failure, `none` when no upstream call was ever
recorded. -/
def lastOutcome : List CacheOp → Option Bool
  | [] => none
  | op :: ops =>
    match lastOutcome ops with
    | some b => some b
    | none =>
      match op with
      | .apiSuccess _ => some true
      | .apiError _ _ => some false
      | _ => none

/-- A character list that `strconv.Atoi` accepts syntactically: an optional
sign followed by a nonempty run of decimal digits. -/
def isIntLiteral (l : List Char) : Bool :=
  match l with
  | [] => false
  | c :: rest =>
    let digits := if c = '-' || c = '+' then rest else c :: rest
    !digits.isEmpty && digits.all (fun ch => ch.isDigit)

/-- The first dot-separated component of a string (the `parts[0]` that
`extractMajor` hands to `strconv.Atoi`). -/
def firstDotComponent (s : String) : List Char :=
  (splitOnDot s.toList).headD []

/-- Claim-level notion: the component parses under Go `strconv.Atoi` as a
non-negative integer (no error, value `≥ 0`). -/
def parsesAsNonNegInt (l : List Char) : Bool :=
  (atoiChars l).snd && decide (0 ≤ (atoiChars l).fst)

/-- A one-entry cache used as concrete input for the `Cache.Get` claims:
the single entry expires exactly at time `5`. -/
def boundaryCache : Cache :=
  { entries := [("win64:10",
      { response := { latest := "143.0.7499.41", latestAccepted := "133.0.6943.143",
                      channel := "stable", platform := "win64" },
        expiresAt := 5 })],
    hits := 0, misses := 0, lastAPICall := 0, lastAPIError := "", apiHealthy := true }

/-- A cache in the degraded state with a recorded error, used as concrete
input for the empty-result claim. -/
def degradedCache : Cache :=
  { entries := [], hits := 0, misses := 0, lastAPICall := 5,
    lastAPIError := "boom", apiHealthy := false }

/- ------------------------------------------------------------------ -/
/- Helper lemmas shared by the claim theorems.                         -/
/- ------------------------------------------------------------------ -/

/-- Looking up a key right after inserting it yields the inserted entry. -/
theorem lookupKey_insertKey_self (k : String) (e : CacheEntry) (l : List (String × CacheEntry)) :
    lookupKey k (insertKey k e l) = some e := by
  induction l with
  | nil => simp [insertKey, lookupKey]
  | cons kv rest ih =>
    obtain ⟨k2, e2⟩ := kv
    by_cases h : k2 = k
    · simp [insertKey, lookupKey, h]
    · simp [insertKey, lookupKey, h, ih]

/-- `findFirstVersionWithMajor` is `List.find?` with `""` as the absent
sentinel. -/
theorem findFirstVersionWithMajor_eq_find (versions : List String) (t : Int) :
    findFirstVersionWithMajor versions t =
      (versions.find? (fun v => extractMajor v = t)).getD "" := by
  induction versions with
  | nil => simp [findFirstVersionWithMajor]
  | cons v rest ih =>
    by_cases h : extractMajor v = t
    · simp [findFirstVersionWithMajor, List.find?, h]
    · simp [findFirstVersionWithMajor, List.find?, h, ih]

/-- On syntactically invalid input, `strconv.Atoi` reports the zero value
and an error. -/
theorem atoiChars_invalid (l : List Char) (h : isIntLiteral l = false) :
    atoiChars l = (0, false) := by
  cases l with
  | nil => rfl
  | cons c rest =>
    have h' : (!(if c = '-' || c = '+' then rest else c :: rest).isEmpty
        && (if c = '-' || c = '+' then rest else c :: rest).all (fun ch => ch.isDigit)) = false := h
    have hcond : ((if c = '-' || c = '+' then rest else c :: rest).isEmpty
        || !((if c = '-' || c = '+' then rest else c :: rest).all (fun ch => ch.isDigit))) = true := by
      revert h'
      generalize (if c = '-' || c = '+' then rest else c :: rest).isEmpty = b1
      generalize ((if c = '-' || c = '+' then rest else c :: rest).all (fun ch => ch.isDigit)) = b2
      cases b1 <;> cases b2 <;> decide
    unfold atoiChars
    simp only [hcond, if_true]

/-- The health flag after a history is the last recorded outcome, or the
starting flag when no outcome was recorded. -/
theorem applyOps_apiHealthy (ops : List CacheOp) (c : Cache) :
    (applyOps c ops).apiHealthy = (lastOutcome ops).getD c.apiHealthy := by
  induction ops generalizing c with
  | nil => rfl
  | cons op ops ih =>
    show (applyOps (applyOp c op) ops).apiHealthy = _
    rw [ih]
    cases hop : lastOutcome ops with
    | some b => simp [lastOutcome, hop]
    | none =>
      cases op <;>
        simp [lastOutcome, hop, applyOp, recordHit, recordMiss, cacheSet,
          recordAPISuccess, recordAPIError, cleanupExpiredCache]

/-- Rounding a rational to two decimal places moves it by at most `1/200`. -/
theorem abs_round_two_decimals_sub_le (x : ℚ) :
    |((round (x * 100) : ℤ) : ℚ) / 100 - x| ≤ 1 / 200 := by
  have h := abs_sub_round (x * 100)
  rw [show ((round (x * 100) : ℤ) : ℚ) / 100 - x
        = (((round (x * 100) : ℤ) : ℚ) - x * 100) / 100 by ring]
  rw [abs_div, show |(100 : ℚ)| = 100 by norm_num,
    div_le_iff₀ (by norm_num : (0 : ℚ) < 100), abs_sub_comm]
  linarith

/- ------------------------------------------------------------------ -/
/- Claim theorems.                                                     -/
/- ------------------------------------------------------------------ -/

/-- C2 counterexample: the first dot-separated component of `"-5.0.0.0"`
does not parse as a non-negative integer, yet `extractMajor` returns `-5`,
not `0`, refuting the claim's malformed-input clause at that input. -/
theorem claim_C2_counterexample :
    parsesAsNonNegInt (firstDotComponent "-5.0.0.0") = false ∧
    extractMajor "-5.0.0.0" = -5 ∧ extractMajor "-5.0.0.0" ≠ 0 := by
  decide

/-- C2 (amended): `extractMajor` is a total function with the three stated
values, and returns `0` whenever the first dot-separated component is not a
syntactically valid integer literal; a component that parses as a negative
integer instead yields that negative value. -/
theorem claim_C2_extractMajor :
    extractMajor "143.0.7499.41" = 143 ∧ extractMajor "" = 0 ∧
    extractMajor "abc.1.2.3" = 0 ∧
    ∀ s : String, isIntLiteral (firstDotComponent s) = false → extractMajor s = 0 := by
  refine ⟨by decide, by decide, by decide, ?_⟩
  intro s h
  unfold extractMajor
  unfold firstDotComponent at h
  cases hs : splitOnDot s.toList with
  | nil => rfl
  | cons p rest =>
    rw [hs] at h
    simp only [List.headD] at h
    show (atoiChars p).fst = 0
    rw [atoiChars_invalid p h]

/-- C2 witness: the amended malformed-input clause applied at
`"abc.1.2.3"`. -/
theorem claim_C2_witness :
    isIntLiteral (firstDotComponent "abc.1.2.3") = false ∧ extractMajor "abc.1.2.3" = 0 :=
  ⟨by decide, claim_C2_extractMajor.2.2.2 "abc.1.2.3" (by decide)⟩

/-- C3 counterexample: in `boundaryCache` the entry expires exactly at time
`5`; at current time `5` the current time is not before the expiry, yet
`Cache.Get` still reports the entry found, refuting the claim's
if-and-only-if as stated. -/
theorem claim_C3_counterexample :
    lookupKey "win64:10" boundaryCache.entries =
      some { response := { latest := "143.0.7499.41", latestAccepted := "133.0.6943.143",
                           channel := "stable", platform := "win64" },
             expiresAt := 5 } ∧
    (cacheGet boundaryCache "win64:10" 5).snd = true ∧ ¬ ((5 : Int) < 5) := by
  refine ⟨by decide, by decide, by decide⟩

/-- C3 (amended): `Cache.Get` reports found if and only if the key is bound
and the current time is not after the expiry (`now ≤ expiresAt`); when found
it returns the stored response, and an entry whose expiry has strictly
passed is reported absent (with the zero response) even if the Reaper has
not yet removed it. -/
theorem claim_C3_get (c : Cache) (k : String) (now : Int) :
    ((cacheGet c k now).snd = true ↔
       ∃ e, lookupKey k c.entries = some e ∧ ¬ now > e.expiresAt) ∧
    (∀ e, lookupKey k c.entries = some e → ¬ now > e.expiresAt →
       cacheGet c k now = (e.response, true)) ∧
    (∀ e, lookupKey k c.entries = some e → now > e.expiresAt →
       cacheGet c k now = (emptyResponse, false)) ∧
    (lookupKey k c.entries = none → cacheGet c k now = (emptyResponse, false)) := by
  unfold cacheGet
  cases hl : lookupKey k c.entries with
  | none => simp
  | some e =>
    by_cases he : now > e.expiresAt
    · simp [he]
    · simp [he]
      omega

/-- C3 witness: the found clause of the amended claim applied to
`boundaryCache` at time `3`, before the expiry. -/
theorem claim_C3_witness :
    lookupKey "win64:10" boundaryCache.entries =
      some { response := { latest := "143.0.7499.41", latestAccepted := "133.0.6943.143",
                           channel := "stable", platform := "win64" },
             expiresAt := 5 } ∧
    cacheGet boundaryCache "win64:10" 3 =
      ({ latest := "143.0.7499.41", latestAccepted := "133.0.6943.143",
         channel := "stable", platform := "win64" }, true) :=
  ⟨by decide,
    (claim_C3_get boundaryCache "win64:10" 3).2.1
      { response := { latest := "143.0.7499.41", latestAccepted := "133.0.6943.143",
                      channel := "stable", platform := "win64" },
        expiresAt := 5 }
      (by decide) (by decide)⟩

/-- C5: after any history of cache mutations starting from the freshly
initialized store, the health status is "healthy" exactly when the last
recorded upstream outcome is a success or no outcome was ever recorded, and
"degraded" exactly when it is a failure; recording an error flips the
status to degraded immediately and recording a success flips it back,
independent of cache entry contents. -/
theorem claim_C5_health (ops : List CacheOp) :
    (healthStatus (applyOps initialCache ops) = "healthy" ↔
       lastOutcome ops = none ∨ lastOutcome ops = some true) ∧
    (healthStatus (applyOps initialCache ops) = "degraded" ↔
       lastOutcome ops = some false) ∧
    (∀ c msg t, healthStatus (recordAPIError c msg t) = "degraded") ∧
    (∀ c t, healthStatus (recordAPISuccess c t) = "healthy") := by
  have hh := applyOps_apiHealthy ops initialCache
  refine ⟨?_, ?_, fun c msg t => rfl, fun c t => rfl⟩ <;>
  · unfold healthStatus isAPIHealthy
    rw [hh]
    cases ho : lastOutcome ops with
    | none => simp [initialCache]
    | some b => cases b <;> simp

/-- C9: `Set(k, v)` immediately followed by `Get(k)` returns `(v, true)`
for every prior cache state, because the entry is stored with expiry
`now + cacheTTL`, which is strictly in the future. -/
theorem claim_C9_set_get_roundtrip (c : Cache) (k : String) (v : VersionResponse) (now : Int) :
    cacheGet (cacheSet c k v now) k now = (v, true) ∧
    lookupKey k (cacheSet c k v now).entries =
      some { response := v, expiresAt := now + cacheTTL } ∧
    now < now + cacheTTL := by
  have httl : (0 : Int) < cacheTTL := by norm_num [cacheTTL]
  have hl : lookupKey k (cacheSet c k v now).entries =
      some { response := v, expiresAt := now + cacheTTL } :=
    lookupKey_insertKey_self k _ c.entries
  refine ⟨?_, hl, by linarith⟩
  unfold cacheGet
  rw [hl]
  have hn : ¬ now > now + cacheTTL := by linarith
  simp [hn]

/-- C7: one Reaper sweep keeps exactly the entries whose expiry has not
passed — an entry survives the sweep if and only if it was present and not
expired — a sweep with no expired entry leaves the cache identical, and the
counters and health state are never touched by a sweep. -/
theorem claim_C7_sweep (c : Cache) (now : Int) :
    (∀ k e, (k, e) ∈ (cleanupExpiredCache c now).entries ↔
       ((k, e) ∈ c.entries ∧ ¬ now > e.expiresAt)) ∧
    ((∀ k e, (k, e) ∈ c.entries → ¬ now > e.expiresAt) → cleanupExpiredCache c now = c) ∧
    (cleanupExpiredCache c now).hits = c.hits ∧
    (cleanupExpiredCache c now).misses = c.misses ∧
    (cleanupExpiredCache c now).lastAPICall = c.lastAPICall ∧
    (cleanupExpiredCache c now).lastAPIError = c.lastAPIError ∧
    (cleanupExpiredCache c now).apiHealthy = c.apiHealthy := by
  refine ⟨?_, ?_, rfl, rfl, rfl, rfl, rfl⟩
  · intro k e
    unfold cleanupExpiredCache
    simp [List.mem_filter]
  · intro hall
    unfold cleanupExpiredCache
    have hf : c.entries.filter (fun kv => !(now > kv.2.expiresAt)) = c.entries := by
      rw [List.filter_eq_self]
      intro kv hkv
      obtain ⟨k, e⟩ := kv
      have := hall k e hkv
      simp [this]
    rw [hf]

/-- C7 witness: a sweep at time `3`, when the single entry of
`boundaryCache` (expiry `5`) is not yet expired, changes nothing. -/
theorem claim_C7_witness :
    cleanupExpiredCache boundaryCache 3 = boundaryCache :=
  (claim_C7_sweep boundaryCache 3).2.1 (by
    intro k e h
    simp only [boundaryCache, List.mem_singleton, Prod.mk.injEq] at h
    rw [h.2]
    decide)

/-- C8 counterexample: with 1 recorded hit and 2 recorded misses the
reported rate is the two-decimal value `33.33`, which differs from the
exact rational `1/3 × 100`, refuting the claim's exact-arithmetic clause. -/
theorem claim_C8_counterexample :
    (getStats { entries := [], hits := 1, misses := 2, lastAPICall := 0,
                lastAPIError := "", apiHealthy := true } 0).hitRate = some (3333 / 100) ∧
    ((3333 : ℚ) / 100) ≠ (1 : ℚ) / (1 + 2) * 100 := by
  constructor
  · unfold getStats
    norm_num [round_eq]
  · norm_num

/-- C8 (amended): the hit rate is omitted exactly when no lookup was
recorded; when reported it is the exact rational `hits/(hits+misses)×100`
rounded to two decimal places, hence within `1/200` of it; and after
exactly 3 hits and 1 miss the reported rate is exactly 75. -/
theorem claim_C8_hit_rate (c : Cache) (now : Int) :
    ((getStats c now).hitRate = none ↔ ¬ 0 < c.hits + c.misses) ∧
    (∀ r, (getStats c now).hitRate = some r →
       r = ((round ((c.hits : ℚ) / (((c.hits : ℚ) + (c.misses : ℚ))) * 100 * 100) : ℤ) : ℚ) / 100 ∧
       |r - (c.hits : ℚ) / ((c.hits : ℚ) + (c.misses : ℚ)) * 100| ≤ 1 / 200) ∧
    (c.hits = 3 → c.misses = 1 → (getStats c now).hitRate = some 75) := by
  refine ⟨?_, ?_, ?_⟩
  · unfold getStats
    by_cases h : 0 < c.hits + c.misses
    · simp [h]
    · simp [h]
  · intro r hr
    simp only [getStats] at hr
    by_cases h : 0 < c.hits + c.misses
    · rw [if_pos h] at hr
      have hcast : ((c.hits + c.misses : Int) : ℚ) = (c.hits : ℚ) + (c.misses : ℚ) := by
        push_cast
        ring
      rw [hcast] at hr
      have hr2 := (Option.some.injEq _ _).mp hr
      constructor
      · exact hr2.symm
      · rw [← hr2]
        exact abs_round_two_decimals_sub_le ((c.hits : ℚ) / ((c.hits : ℚ) + (c.misses : ℚ)) * 100)
  
    · rw [if_neg h] at hr
      exact absurd hr (by simp)
  · intro h3 h1
    unfold getStats
    rw [h3, h1]
    norm_num [round_eq]

/-- C8 witness: the 3-hit/1-miss clause of the amended claim at a concrete
store. -/
theorem claim_C8_witness :
    (getStats { entries := [], hits := 3, misses := 1, lastAPICall := 0,
                lastAPIError := "", apiHealthy := true } 0).hitRate = some 75 :=
  (claim_C8_hit_rate { entries := [], hits := 3, misses := 1, lastAPICall := 0,
                       lastAPIError := "", apiHealthy := true } 0).2.2 rfl rfl

/-- C1 counterexample: starting from a degraded store (healthy = false,
last error "boom", last call at 5), a request whose upstream call succeeds
with an empty version list answers not-found, yet every component of the
shared health state has changed, refuting the claim's no-mutation clause. -/
theorem claim_C1_counterexample :
    (getChromeVersions "win64" "0" "" (.ok []) degradedCache 99).fst =
      .notFound "No versions found" ∧
    (getChromeVersions "win64" "0" "" (.ok []) degradedCache 99).snd.lastAPICall ≠
      degradedCache.lastAPICall ∧
    (getChromeVersions "win64" "0" "" (.ok []) degradedCache 99).snd.apiHealthy ≠
      degradedCache.apiHealthy ∧
    (getChromeVersions "win64" "0" "" (.ok []) degradedCache 99).snd.lastAPIError ≠
      degradedCache.lastAPIError := by
  decide

/-- C1 (amended): on a cache miss whose upstream call succeeds with an
empty version list, the service answers not-found, but the request first
records the upstream call as a success: the last-call timestamp becomes the
current time, the healthy flag becomes true and the last error text is
cleared; the entries and the hit counter are unchanged and the miss counter
is incremented. -/
theorem claim_C1_empty_result (platformParam offsetParam env : String) (c : Cache) (now : Int)
    (hplat : isValidPlatform (if platformParam = "" then "win64" else platformParam) = true)
    (hoff : ¬ getOffsetFromRequest offsetParam env < 0)
    (hmiss : (cacheGet c ((if platformParam = "" then "win64" else platformParam) ++ ":" ++
        toString (getOffsetFromRequest offsetParam env)) now).snd = false) :
    getChromeVersions platformParam offsetParam env (.ok []) c now =
      (.notFound "No versions found",
       { entries := c.entries, hits := c.hits, misses := c.misses + 1,
         lastAPICall := now, lastAPIError := "", apiHealthy := true }) := by
  simp only [getChromeVersions, hplat, Bool.not_true, if_neg hoff, hmiss]
  simp [recordAPISuccess, recordMiss]

/-- C1 witness: the amended claim applied at a concrete degraded store. -/
theorem claim_C1_witness :
    isValidPlatform "win64" = true ∧
    ¬ getOffsetFromRequest "0" "" < 0 ∧
    (cacheGet degradedCache ("win64" ++ ":" ++ toString (getOffsetFromRequest "0" "")) 99).snd
      = false ∧
    getChromeVersions "win64" "0" "" (.ok []) degradedCache 99 =
      (.notFound "No versions found",
       { entries := degradedCache.entries, hits := degradedCache.hits,
         misses := degradedCache.misses + 1, lastAPICall := 99,
         lastAPIError := "", apiHealthy := true }) :=
  ⟨by decide, by decide, by decide,
    claim_C1_empty_result "win64" "0" "" degradedCache 99 (by decide) (by decide) (by decide)⟩

/-- C6: a request with an invalid platform, or with an offset query
parameter that fails to parse or parses to a negative value, is answered
with the corresponding bad-request error and returns the cache state
exactly as it was — entries, counters and health state included — for every
prior cache state; an unparsable or negative offset parameter always makes
the resolved offset negative. -/
theorem claim_C6_validation (platformParam offsetParam env : String)
    (upstream : Except String (List String)) (c : Cache) (now : Int) :
    (isValidPlatform (if platformParam = "" then "win64" else platformParam) = false →
       getChromeVersions platformParam offsetParam env upstream c now =
         (.badRequest "Invalid platform. Use: win, win64, mac, mac_arm64, linux", c)) ∧
    (isValidPlatform (if platformParam = "" then "win64" else platformParam) = true →
     getOffsetFromRequest offsetParam env < 0 →
       getChromeVersions platformParam offsetParam env upstream c now =
         (.badRequest "Offset must be a number >= 0", c)) ∧
    (offsetParam ≠ "" →
     ((atoi offsetParam).snd = false ∨ (atoi offsetParam).fst < 0) →
       getOffsetFromRequest offsetParam env < 0) := by
  refine ⟨?_, ?_, ?_⟩
  · intro h
    simp only [getChromeVersions, h]
    simp
  · intro hplat hoff
    simp only [getChromeVersions, hplat, Bool.not_true, if_pos hoff]
    simp
  · intro hne h
    unfold getOffsetFromRequest
    rw [if_pos hne]
    rcases h with h | h
    · simp [h]
    · by_cases hs : (atoi offsetParam).snd
      · simp [hs, h]
      · simp [hs]

/-- C6 witness: the invalid-platform branch at `"solaris"` and the
unparsable-offset branch at `"abc"`, both leaving a nonempty cache intact. -/
theorem claim_C6_witness :
    isValidPlatform "solaris" = false ∧
    getChromeVersions "solaris" "" "" (.ok []) boundaryCache 0 =
      (.badRequest "Invalid platform. Use: win, win64, mac, mac_arm64, linux", boundaryCache) ∧
    ("abc" : String) ≠ "" ∧ (atoi "abc").snd = false ∧
    getOffsetFromRequest "abc" "" < 0 ∧
    getChromeVersions "win64" "abc" "" (.ok []) boundaryCache 7 =
      (.badRequest "Offset must be a number >= 0", boundaryCache) :=
  ⟨by decide,
   (claim_C6_validation "solaris" "" "" (.ok []) boundaryCache 0).1 (by decide),
   by decide, by decide,
   (claim_C6_validation "win64" "abc" "" (.ok []) boundaryCache 0).2.2 (by decide) (by decide),
   (claim_C6_validation "win64" "abc" "" (.ok []) boundaryCache 7).2.1 (by decide) (by decide)⟩

/-- C10: a request whose platform parameter is absent or empty (the Go
query getter returns `""` in both cases) behaves exactly like a request for
platform `"win64"`: `"win64"` is a valid platform and the request is never
answered with the invalid-platform rejection. -/
theorem claim_C10_default_platform (offsetParam env : String)
    (upstream : Except String (List String)) (c : Cache) (now : Int) :
    getChromeVersions "" offsetParam env upstream c now =
      getChromeVersions "win64" offsetParam env upstream c now ∧
    isValidPlatform "win64" = true ∧
    (getChromeVersions "" offsetParam env upstream c now).fst ≠
      .badRequest "Invalid platform. Use: win, win64, mac, mac_arm64, linux" := by
  have heq : getChromeVersions "" offsetParam env upstream c now =
      getChromeVersions "win64" offsetParam env upstream c now := rfl
  refine ⟨heq, rfl, ?_⟩
  rw [heq]
  simp only [getChromeVersions]
  split
  · next hcond =>
    exact absurd hcond (by decide)
  · split
    · next hcond =>
      exact absurd hcond (by decide)
    · split
      · intro hbad
        simp only [HttpResult.badRequest.injEq] at hbad
        exact absurd hbad (by decide)
      · split
        · simp
        · rcases upstream with e | versions
          · simp
          · cases versions <;> simp

/-- C4 counterexample: two refutations of the claim as stated.  (a) With
upstream list `[""]` and offset `0`, the target major is `0` and the first
(and only) element with major `0` is `""` itself; the claim says the
accepted version should then be that element, but the code conflates the
empty string with its absent sentinel and answers the synthetic `"0.0.0.0"`
instead.  (b) With upstream `["-2.0.0.0", "9223372036854775807.0.0.0"]`
and offset `9223372036854775807`, the exact difference
`-2 - 9223372036854775807 = -9223372036854775809` matches no element, so
the claim demands the synthetic `"-9223372036854775809.0.0.0"`; the Go
subtraction wraps in int64 to `9223372036854775807` and the program
answers the matching element instead. -/
theorem claim_C4_counterexample :
    List.find? (fun x => extractMajor x = extractMajor "" - getOffsetFromRequest "0" "") [""]
      = some "" ∧
    (getChromeVersions "win64" "0" "" (.ok [""]) initialCache 0).fst =
      .ok { latest := "", latestAccepted := "0.0.0.0", channel := "stable",
            platform := "win64" } ∧
    ("0.0.0.0" : String) ≠ "" ∧
    extractMajor "-2.0.0.0" - getOffsetFromRequest "9223372036854775807" ""
      = -9223372036854775809 ∧
    List.find? (fun x => extractMajor x = -9223372036854775809)
      ["-2.0.0.0", "9223372036854775807.0.0.0"] = none ∧
    (getChromeVersions "win64" "9223372036854775807" ""
        (.ok ["-2.0.0.0", "9223372036854775807.0.0.0"]) initialCache 0).fst =
      .ok { latest := "-2.0.0.0", latestAccepted := "9223372036854775807.0.0.0",
            channel := "stable", platform := "win64" } ∧
    ("9223372036854775807.0.0.0" : String) ≠
      toString (-9223372036854775809 : Int) ++ ".0.0.0" := by
  refine ⟨by decide, by decide, by decide, by decide, by decide, by decide, by decide⟩

/-- C4 (amended): on a cache miss with a non-empty upstream list, the
target major is the 64-bit wrapping difference
`wrapInt64 (extractMajor latest - offset)` — negative when the offset
exceeds the latest major without wrapping — and the accepted version is
the first element (in input order) whose extracted major equals that
target, provided that element is not the empty string; when no element
matches, or the first matching element is the empty string, the accepted
version is the synthetic `"<targetMajor>.0.0.0"`, so the request still
succeeds. -/
theorem claim_C4_accepted (platformParam offsetParam env : String)
    (v : String) (vs : List String) (c : Cache) (now : Int)
    (hplat : isValidPlatform (if platformParam = "" then "win64" else platformParam) = true)
    (hoff : ¬ getOffsetFromRequest offsetParam env < 0)
    (hmiss : (cacheGet c ((if platformParam = "" then "win64" else platformParam) ++ ":" ++
        toString (getOffsetFromRequest offsetParam env)) now).snd = false) :
    ∃ resp : VersionResponse,
      (getChromeVersions platformParam offsetParam env (.ok (v :: vs)) c now).fst = .ok resp ∧
      resp.latest = v ∧
      (∀ m, (v :: vs).find? (fun x =>
           extractMajor x = wrapInt64 (extractMajor v - getOffsetFromRequest offsetParam env))
           = some m →
         m ≠ "" → resp.latestAccepted = m) ∧
      ((v :: vs).find? (fun x =>
           extractMajor x = wrapInt64 (extractMajor v - getOffsetFromRequest offsetParam env))
           = none →
         resp.latestAccepted =
           toString (wrapInt64 (extractMajor v - getOffsetFromRequest offsetParam env))
             ++ ".0.0.0") ∧
      ((v :: vs).find? (fun x =>
           extractMajor x = wrapInt64 (extractMajor v - getOffsetFromRequest offsetParam env))
           = some "" →
         resp.latestAccepted =
           toString (wrapInt64 (extractMajor v - getOffsetFromRequest offsetParam env))
             ++ ".0.0.0") := by
  simp only [getChromeVersions, hplat, Bool.not_true, if_neg hoff, hmiss]
  refine ⟨_, rfl, rfl, ?_, ?_, ?_⟩
  · intro m hm hne
    show (if findFirstVersionWithMajor (v :: vs)
        (wrapInt64 (extractMajor v - getOffsetFromRequest offsetParam env)) = ""
      then _ else _) = m
    rw [findFirstVersionWithMajor_eq_find, hm]
    simp [hne]
  · intro hm
    show (if findFirstVersionWithMajor (v :: vs)
        (wrapInt64 (extractMajor v - getOffsetFromRequest offsetParam env)) = ""
      then _ else _) = _
    rw [findFirstVersionWithMajor_eq_find, hm]
    simp
  · intro hm
    show (if findFirstVersionWithMajor (v :: vs)
        (wrapInt64 (extractMajor v - getOffsetFromRequest offsetParam env)) = ""
      then _ else _) = _
    rw [findFirstVersionWithMajor_eq_find, hm]
    simp

/-- C4 witness: end-to-end scenario with list
`["143.0.7499.41", "142.0.1.1", "133.0.6943.143"]` and offset 10 (the
first element with major 133 is accepted), and the wrapping scenario where
the target `-2 - 9223372036854775807` wraps to `9223372036854775807` and
the matching element is accepted. -/
theorem claim_C4_witness :
    List.find? (fun x => extractMajor x =
        wrapInt64 (extractMajor "143.0.7499.41" - getOffsetFromRequest "10" ""))
      ["143.0.7499.41", "142.0.1.1", "133.0.6943.143"] = some "133.0.6943.143" ∧
    (∃ resp : VersionResponse,
      (getChromeVersions "win64" "10" ""
        (.ok ["143.0.7499.41", "142.0.1.1", "133.0.6943.143"]) initialCache 0).fst =
        .ok resp ∧ resp.latestAccepted = "133.0.6943.143") ∧
    wrapInt64 (extractMajor "-2.0.0.0" - getOffsetFromRequest "9223372036854775807" "")
      = 9223372036854775807 ∧
    (∃ resp : VersionResponse,
      (getChromeVersions "win64" "9223372036854775807" ""
        (.ok ["-2.0.0.0", "9223372036854775807.0.0.0"]) initialCache 0).fst =
        .ok resp ∧ resp.latestAccepted = "9223372036854775807.0.0.0") := by
  refine ⟨by decide, ?_, by decide, ?_⟩
  · obtain ⟨resp, hfst, hlatest, hfound, hnone, hempty⟩ :=
      claim_C4_accepted "win64" "10" "" "143.0.7499.41" ["142.0.1.1", "133.0.6943.143"]
        initialCache 0 (by decide) (by decide) (by decide)
    exact ⟨resp, hfst, hfound "133.0.6943.143" (by decide) (by decide)⟩
  · obtain ⟨resp, hfst, hlatest, hfound, hnone, hempty⟩ :=
      claim_C4_accepted "win64" "9223372036854775807" "" "-2.0.0.0"
        ["9223372036854775807.0.0.0"] initialCache 0 (by decide) (by decide) (by decide)
    exact ⟨resp, hfst, hfound "9223372036854775807.0.0.0" (by decide) (by decide)⟩
